import Mathlib

/-!
Shallow embedding of the clipipe server storage core
(`src/server/server.py` and `src/server/storage_backend.py`).

Conventions of the embedding:
* Byte strings are `Bytes := List Nat`; Python text is `Text := List Char`.
* The wall clock is an explicit `now : Nat` argument (seconds); the
  expiry timestamp written by `isoformat` and read back by
  `fromisoformat` is modelled by a decimal codec (`natDigits`,
  `fromisoformat`) that round-trips and rejects non-numeric text,
  matching the two properties of the ISO-8601 codec the code relies on.
* The `secrets` randomness source is an explicit stream `f : Nat → Nat`
  together with a cursor position; each draw consumes one stream value.
* Python exceptions are the `PyError` sum, threaded as
  `Except PyError α × State` so that the state at the moment an
  exception escapes is still visible.
* The filesystem is two partial maps indexed by code: the `<code>.dat`
  records and the `<code>.exp` records of `DiskStorageBackend`.
-/

abbrev Bytes := List Nat
abbrev Text := List Char

/-- Python exception kinds that the storage core can raise. -/
inductive PyError
  | fileNotFound
  | valueError
  | allocExhausted
  deriving DecidableEq, Repr

/-! ### Decimal text codec (model of `isoformat` / `fromisoformat` / `str` / `int`) -/

def digitChar (d : Nat) : Char := Char.ofNat (48 + d)

def digitVal (c : Char) : Option Nat :=
  if c.isDigit then some (c.toNat - 48) else none

def parseDecAux : Text → Nat → Option Nat
  | [], acc => some acc
  | c :: cs, acc =>
    match digitVal c with
    | some d => parseDecAux cs (10 * acc + d)
    | none => none

/-- Parse a non-empty all-digit text as a natural number. -/
def parseDec : Text → Option Nat
  | [] => none
  | c :: cs => parseDecAux (c :: cs) 0

def natDigitsAux : Nat → Nat → Text
  | 0, _ => []
  | fuel + 1, n =>
    if n < 10 then [digitChar n]
    else natDigitsAux fuel (n / 10) ++ [digitChar (n % 10)]

/-- Decimal representation of a natural number (model of Python `str`
and of the timestamp serialisation of `isoformat`). -/
def natDigits (n : Nat) : Text := natDigitsAux (n + 1) n

/-- Model of Python `str.strip`. -/
def stripText (s : Text) : Text :=
  ((s.dropWhile Char.isWhitespace).reverse.dropWhile Char.isWhitespace).reverse

/-- Model of `datetime.fromisoformat`: partial parse of serialized
timestamps, raising `ValueError` (here: `none`) on malformed text. -/
def fromisoformat (s : Text) : Option Nat := parseDec s

/-- Model of Python `str.zfill`. -/
def zfill (s : Text) (w : Nat) : Text := List.replicate (w - s.length) '0' ++ s

/-! ### Codec lemmas -/

theorem digitVal_digitChar (d : Nat) (h : d < 10) : digitVal (digitChar d) = some d := by
  interval_cases d <;> decide

theorem digitChar_not_whitespace (d : Nat) (h : d < 10) :
    (digitChar d).isWhitespace = false := by
  interval_cases d <;> decide

theorem digitChar_isDigit (d : Nat) (h : d < 10) : (digitChar d).isDigit = true := by
  interval_cases d <;> decide

theorem natDigitsAux_ne_nil (fuel n : Nat) (h : n < fuel) : natDigitsAux fuel n ≠ [] := by
  cases fuel with
  | zero => omega
  | succ fuel =>
    unfold natDigitsAux
    by_cases hn : n < 10
    · simp [hn]
    · simp [hn]

theorem mem_natDigitsAux (fuel n : Nat) (c : Char) (hc : c ∈ natDigitsAux fuel n) :
    ∃ d, d < 10 ∧ c = digitChar d := by
  induction fuel generalizing n with
  | zero => simp [natDigitsAux] at hc
  | succ fuel ih =>
    unfold natDigitsAux at hc
    by_cases hn : n < 10
    · simp [hn] at hc
      exact ⟨n, hn, hc⟩
    · simp [hn] at hc
      rcases hc with hc | hc
      · exact ih _ hc
      · exact ⟨n % 10, Nat.mod_lt _ (by omega), hc⟩

theorem parseDecAux_append (xs ys : Text) (acc : Nat) :
    parseDecAux (xs ++ ys) acc =
      match parseDecAux xs acc with
      | some a => parseDecAux ys a
      | none => none := by
  induction xs generalizing acc with
  | nil => simp [parseDecAux]
  | cons c cs ih =>
    simp only [List.cons_append, parseDecAux]
    cases digitVal c with
    | none => simp
    | some d => simpa using ih (10 * acc + d)

theorem parseDecAux_natDigitsAux (fuel n acc : Nat) (h : n < fuel) :
    parseDecAux (natDigitsAux fuel n) acc =
      some (acc * 10 ^ (natDigitsAux fuel n).length + n) := by
  induction fuel generalizing n acc with
  | zero => omega
  | succ fuel ih =>
    unfold natDigitsAux
    by_cases hn : n < 10
    · simp [hn, parseDecAux, digitVal_digitChar n hn]
      ring
    · simp only [if_neg hn]
      have hdiv : n / 10 < fuel := by
        have h1 : n / 10 < n := Nat.div_lt_self (by omega) (by omega)
        omega
      rw [parseDecAux_append]
      rw [ih (n / 10) acc hdiv]
      simp [parseDecAux, digitVal_digitChar (n % 10) (Nat.mod_lt _ (by omega))]
      have hmod : 10 * (n / 10) + n % 10 = n := by omega
      rw [pow_succ]
      linarith [hmod]

theorem dropWhile_of_forall_false {p : Char → Bool} :
    ∀ l : Text, (∀ c ∈ l, p c = false) → l.dropWhile p = l := by
  intro l h
  cases l with
  | nil => rfl
  | cons c cs =>
    have hc : p c = false := h c (by simp)
    simp [List.dropWhile, hc]

theorem stripText_of_no_whitespace (l : Text)
    (h : ∀ c ∈ l, c.isWhitespace = false) : stripText l = l := by
  unfold stripText
  rw [dropWhile_of_forall_false l h]
  rw [dropWhile_of_forall_false l.reverse (by intro c hc; exact h c (List.mem_reverse.mp hc))]
  exact List.reverse_reverse l

theorem stripText_natDigits (n : Nat) : stripText (natDigits n) = natDigits n := by
  apply stripText_of_no_whitespace
  intro c hc
  obtain ⟨d, hd, rfl⟩ := mem_natDigitsAux _ _ _ hc
  exact digitChar_not_whitespace d hd

theorem parseDec_natDigits (n : Nat) : parseDec (natDigits n) = some n := by
  have hne : natDigits n ≠ [] := natDigitsAux_ne_nil (n + 1) n (by omega)
  have hparse : parseDecAux (natDigits n) 0 =
      some (0 * 10 ^ (natDigits n).length + n) :=
    parseDecAux_natDigitsAux (n + 1) n 0 (by omega)
  cases hd : natDigits n with
  | nil => exact absurd hd hne
  | cons c cs =>
    rw [hd] at hparse
    simpa [parseDec] using hparse

theorem fromisoformat_roundtrip (n : Nat) :
    fromisoformat (stripText (natDigits n)) = some n := by
  rw [stripText_natDigits]
  exact parseDec_natDigits n

/-! ### Randomness source and `secrets` primitives -/

/-- Model of `secrets.choice`: pick the element indexed by the draw,
uniform over the list (the empty case is unreachable for the fixed
alphabets used below). -/
def secretsChoice (l : Text) (r : Nat) : Char :=
  match l with
  | [] => 'a'
  | c :: cs => (c :: cs).get ⟨r % (c :: cs).length, Nat.mod_lt _ (Nat.succ_pos _)⟩

/-- Model of `secrets.randbelow n`: the draw reduced modulo `n`. -/
def randbelow (n : Nat) (r : Nat) : Nat := r % n

theorem secretsChoice_mem (l : Text) (r : Nat) (h : l ≠ []) : secretsChoice l r ∈ l := by
  cases l with
  | nil => exact absurd rfl h
  | cons c cs =>
    unfold secretsChoice
    exact List.get_mem _ _ _

/-! ### `server.py` code generator -/

namespace Server

def vowels : Text := ['a', 'e', 'i', 'o', 'u']

def consonants : Text :=
  ['b', 'c', 'd', 'f', 'g', 'h', 'j', 'k', 'l', 'm', 'n',
   'p', 'q', 'r', 's', 't', 'v', 'w', 'x', 'y', 'z']

/-- `generate_human_readable_code` of `server.py`: six alternating
consonant/vowel draws followed by a zero-padded two-digit number.
Returns the code and the advanced cursor into the randomness stream. -/
def generate_human_readable_code (f : Nat → Nat) (pos : Nat) : Text × Nat :=
  let step : (Text × Nat) → Nat → (Text × Nat) := fun acc i =>
    let src := if i % 2 == 0 then consonants else vowels
    (acc.1 ++ [secretsChoice src (f acc.2)], acc.2 + 1)
  let body := (List.range 6).foldl step ([], pos)
  (body.1 ++ zfill (natDigits (randbelow 100 (f body.2))) 2, body.2 + 1)

end Server

/-! ### `storage_backend.py`: the disk backend -/

namespace DiskStorageBackend

def vowels : Text := ['a', 'e', 'i', 'o', 'u']

def consonants : Text :=
  ['b', 'c', 'd', 'f', 'g', 'h', 'j', 'k', 'l', 'm', 'n',
   'p', 'q', 'r', 's', 't', 'v', 'w', 'x', 'y', 'z']

/-- `DiskStorageBackend._generate_human_readable_code`: textually the
same algorithm as the generator in `server.py`. -/
def generate_human_readable_code (f : Nat → Nat) (pos : Nat) : Text × Nat :=
  let step : (Text × Nat) → Nat → (Text × Nat) := fun acc i =>
    let src := if i % 2 == 0 then consonants else vowels
    (acc.1 ++ [secretsChoice src (f acc.2)], acc.2 + 1)
  let body := (List.range 6).foldl step ([], pos)
  (body.1 ++ zfill (natDigits (randbelow 100 (f body.2))) 2, body.2 + 1)

end DiskStorageBackend

/-- The storage directory of the disk backend: the `<code>.dat` records
and the `<code>.exp` records, each a partial map from code to contents. -/
structure DiskState where
  dat : Text → Option Bytes
  exp : Text → Option Text

def emptyDisk : DiskState := ⟨fun _ => none, fun _ => none⟩

def setDat (st : DiskState) (code : Text) (v : Option Bytes) : DiskState :=
  { st with dat := fun c => if c = code then v else st.dat c }

def setExp (st : DiskState) (code : Text) (v : Option Text) : DiskState :=
  { st with exp := fun c => if c = code then v else st.exp c }

namespace DiskStorageBackend

/-- `aiofiles.os.remove` on the `<code>.dat` record: raises
`FileNotFoundError` when the file is absent. -/
def remove_dat (code : Text) (st : DiskState) : Except PyError Unit × DiskState :=
  match st.dat code with
  | none => (.error .fileNotFound, st)
  | some _ => (.ok (), setDat st code none)

/-- `aiofiles.os.remove` on the `<code>.exp` record. -/
def remove_exp (code : Text) (st : DiskState) : Except PyError Unit × DiskState :=
  match st.exp code with
  | none => (.error .fileNotFound, st)
  | some _ => (.ok (), setExp st code none)

/-- `DiskStorageBackend.delete_data`: remove the data record, then the
expiration record; either `os.remove` raises if its file is missing. -/
def delete_data (code : Text) (st : DiskState) : Except PyError Unit × DiskState :=
  match remove_dat code st with
  | (.error e, st') => (.error e, st')
  | (.ok _, st') => remove_exp code st'

/-- `DiskStorageBackend._exists`: absent expiry record reports `False`;
otherwise the record is read, stripped and parsed (`ValueError` on
malformed contents); an expiry in the strict past triggers
`delete_data` (whose exceptions propagate) and reports `False`. -/
def _exists (code : Text) (now : Nat) (st : DiskState) : Except PyError Bool × DiskState :=
  match st.exp code with
  | none => (.ok false, st)
  | some contents =>
    match fromisoformat (stripText contents) with
    | none => (.error .valueError, st)
    | some expiration_time =>
      if expiration_time < now then
        match delete_data code st with
        | (.error e, st') => (.error e, st')
        | (.ok _, st') => (.ok false, st')
      else (.ok true, st)

/-- `DiskStorageBackend.retrieve_data`: `None` unless `_exists`, then
read the data record (`FileNotFoundError` if it is missing). -/
def retrieve_data (code : Text) (now : Nat) (st : DiskState) :
    Except PyError (Option Bytes) × DiskState :=
  match _exists code now st with
  | (.error e, st') => (.error e, st')
  | (.ok false, st') => (.ok none, st')
  | (.ok true, st') =>
    match st'.dat code with
    | none => (.error .fileNotFound, st')
    | some d => (.ok (some d), st')

/-- The bounded retry loop of `_ensure_unique_code`, indexed by the
remaining attempts out of `max_attempts = 100`. -/
def ensure_unique_code_loop :
    Nat → (Nat → Nat) → Nat → Nat → DiskState → Except PyError (Text × Nat) × DiskState
  | 0, _, _, _, st => (.error .allocExhausted, st)
  | fuel + 1, f, pos, now, st =>
    match _exists (generate_human_readable_code f pos).1 now st with
    | (.error e, st') => (.error e, st')
    | (.ok true, st') => ensure_unique_code_loop fuel f (generate_human_readable_code f pos).2 now st'
    | (.ok false, st') => (.ok ((generate_human_readable_code f pos).1, (generate_human_readable_code f pos).2), st')

/-- `DiskStorageBackend._ensure_unique_code` with `max_attempts = 100`. -/
def _ensure_unique_code (f : Nat → Nat) (pos : Nat) (now : Nat) (st : DiskState) :
    Except PyError (Text × Nat) × DiskState :=
  ensure_unique_code_loop 100 f pos now st

/-- `DiskStorageBackend.store_data`: allocate a unique code, then write
the data record, then write the expiration record (`now + timeout`,
serialized). -/
def store_data (data : Bytes) (f : Nat → Nat) (pos : Nat) (now : Nat) (timeout : Nat)
    (st : DiskState) : Except PyError (Text × Nat) × DiskState :=
  match _ensure_unique_code f pos now st with
  | (.error e, st') => (.error e, st')
  | (.ok (code, pos'), st') =>
    let expiration_time := now + timeout
    let st2 := setDat st' code (some data)
    let st3 := setExp st2 code (some (natDigits expiration_time))
    (.ok (code, pos'), st3)

end DiskStorageBackend

/-! ### `server.py`: the redis-backed endpoints -/

/-- Remote cache state: key to (value, ttl set at write time). -/
abbrev RedisState := Text → Option (Bytes × Nat)

def emptyRedis : RedisState := fun _ => none

/-- `redis_client.exists key`. -/
def redis_exists (st : RedisState) (k : Text) : Bool := (st k).isSome

/-- `redis_client.setex key ttl value`. -/
def setex (st : RedisState) (k : Text) (ttl : Nat) (v : Bytes) : RedisState :=
  fun k' => if k' = k then some (v, ttl) else st k'

/-- `redis_client.get key`. -/
def redis_get (st : RedisState) (k : Text) : Option Bytes := (st k).map Prod.fst

namespace Server

/-- The f-string key `f"clipipe:{code}"`. -/
def clipipeKey (code : Text) : Text :=
  ['c', 'l', 'i', 'p', 'i', 'p', 'e', ':'] ++ code

/-- `int(os.getenv("TIMEOUT_SECONDS", "3600"))`: parse the environment
override, defaulting to the text `"3600"`. -/
def TIMEOUT_SECONDS (env : Option Text) : Option Nat :=
  parseDec (env.getD (natDigits 3600))

/-- The retry loop of `ensure_unique_code` in `server.py`, indexed by
remaining attempts out of `max_attempts = 100`; exhaustion raises
`HTTPException(status_code=500)` (modelled as the status code). -/
def ensure_unique_code_loop :
    Nat → (Nat → Nat) → Nat → RedisState → Except Nat Text × Nat
  | 0, _, pos, _ => (.error 500, pos)
  | fuel + 1, f, pos, st =>
    if redis_exists st (clipipeKey (generate_human_readable_code f pos).1)
    then ensure_unique_code_loop fuel f (generate_human_readable_code f pos).2 st
    else (.ok (generate_human_readable_code f pos).1, (generate_human_readable_code f pos).2)

/-- `ensure_unique_code` with `max_attempts = 100`. -/
def ensure_unique_code (f : Nat → Nat) (pos : Nat) (st : RedisState) :
    Except Nat Text × Nat :=
  ensure_unique_code_loop 100 f pos st

/-- The body of the `try` block of the `/store` endpoint: empty body
raises `HTTPException(400)`, then a unique code is allocated and the
payload written with `setex(key, TIMEOUT_SECONDS, data)`; the success
value is the response `{code, expires_in}`. -/
def store_try (body : Bytes) (f : Nat → Nat) (pos : Nat) (timeout : Nat)
    (st : RedisState) : Except Nat (Text × Nat) × Nat × RedisState :=
  if body = [] then (.error 400, pos, st)
  else
    match ensure_unique_code f pos st with
    | (.error s, pos') => (.error s, pos', st)
    | (.ok code, pos') =>
      (.ok (code, timeout), pos', setex st (clipipeKey code) timeout body)

/-- The `/store` endpoint `store_data`: the `except Exception` clause
catches every exception of the `try` block — including the
`HTTPException`s raised inside it — and re-raises
`HTTPException(status_code=500, "Internal server error: ...")`. -/
def store_data (body : Bytes) (f : Nat → Nat) (pos : Nat) (timeout : Nat)
    (st : RedisState) : Except Nat (Text × Nat) × Nat × RedisState :=
  match store_try body f pos timeout st with
  | (.ok r, pos', st') => (.ok r, pos', st')
  | (.error _, pos', st') => (.error 500, pos', st')

/-- The body of the `try` block of the `/retrieve/{code}` endpoint: a
single `get` of the namespaced key; `HTTPException(404)` when absent. -/
def retrieve_try (code : Text) (st : RedisState) : Except Nat Bytes :=
  match redis_get st (clipipeKey code) with
  | none => .error 404
  | some d => .ok d

/-- The `/retrieve/{code}` endpoint `retrieve_data`, with the same
`except Exception` re-raise wrapping as the store endpoint. -/
def retrieve_data (code : Text) (st : RedisState) : Except Nat Bytes :=
  match retrieve_try code st with
  | .ok d => .ok d
  | .error _ => .error 500

end Server

/-! ### Shape of the generated codes -/

theorem server_generate_eq (f : Nat → Nat) (pos : Nat) :
    Server.generate_human_readable_code f pos =
      ([secretsChoice Server.consonants (f pos),
        secretsChoice Server.vowels (f (pos + 1)),
        secretsChoice Server.consonants (f (pos + 2)),
        secretsChoice Server.vowels (f (pos + 3)),
        secretsChoice Server.consonants (f (pos + 4)),
        secretsChoice Server.vowels (f (pos + 5))] ++
          zfill (natDigits (randbelow 100 (f (pos + 6)))) 2,
       pos + 7) := rfl

theorem natDigitsAux_small (fuel k : Nat) (hf : 0 < fuel) (hk : k < 10) :
    natDigitsAux fuel k = [digitChar k] := by
  cases fuel with
  | zero => omega
  | succ fuel => simp [natDigitsAux, hk]

theorem natDigits_lt100_length (n : Nat) (h : n < 100) :
    (natDigits n).length = 1 ∨ (natDigits n).length = 2 := by
  unfold natDigits
  by_cases hn : n < 10
  · left
    rw [natDigitsAux_small _ _ (by omega) hn]
    rfl
  · right
    unfold natDigitsAux
    rw [if_neg hn]
    rw [natDigitsAux_small n (n / 10) (by omega) (by omega)]
    rfl

theorem zfill_natDigits_length (m : Nat) (h : m < 100) :
    (zfill (natDigits m) 2).length = 2 := by
  rcases natDigits_lt100_length m h with h1 | h1 <;> simp [zfill, h1]

theorem zfill_natDigits_all_digits (m : Nat) :
    (zfill (natDigits m) 2).all Char.isDigit = true := by
  rw [List.all_eq_true]
  intro c hc
  unfold zfill at hc
  rcases List.mem_append.mp hc with hc | hc
  · rw [List.eq_of_mem_replicate hc]
    decide
  · obtain ⟨d, hd, rfl⟩ := mem_natDigitsAux _ _ _ hc
    exact digitChar_isDigit d hd

/-- C7: every generated code is exactly 8 characters; the characters at
positions 0, 2, 4 come from the 21-consonant alphabet, those at
positions 1, 3, 5 from the vowel alphabet "aeiou", and the last two
characters are the zero-padded decimal representation of a number
below 100 (so two decimal digits). -/
theorem generated_code_shape (f : Nat → Nat) (pos : Nat) :
    ((Server.generate_human_readable_code f pos).1).length = 8 ∧
    Server.consonants.length = 21 ∧ Server.vowels.length = 5 ∧
    ((Server.generate_human_readable_code f pos).1).getD 0 ' ' ∈ Server.consonants ∧
    ((Server.generate_human_readable_code f pos).1).getD 2 ' ' ∈ Server.consonants ∧
    ((Server.generate_human_readable_code f pos).1).getD 4 ' ' ∈ Server.consonants ∧
    ((Server.generate_human_readable_code f pos).1).getD 1 ' ' ∈ Server.vowels ∧
    ((Server.generate_human_readable_code f pos).1).getD 3 ' ' ∈ Server.vowels ∧
    ((Server.generate_human_readable_code f pos).1).getD 5 ' ' ∈ Server.vowels ∧
    ∃ m, m < 100 ∧
      ((Server.generate_human_readable_code f pos).1).drop 6 = zfill (natDigits m) 2 ∧
      (((Server.generate_human_readable_code f pos).1).drop 6).length = 2 ∧
      (((Server.generate_human_readable_code f pos).1).drop 6).all Char.isDigit = true := by
  rw [server_generate_eq]
  have hm : randbelow 100 (f (pos + 6)) < 100 := Nat.mod_lt _ (by omega)
  have hcons : Server.consonants ≠ [] := by decide
  have hvow : Server.vowels ≠ [] := by decide
  refine ⟨?_, by decide, by decide, ?_, ?_, ?_, ?_, ?_, ?_,
    randbelow 100 (f (pos + 6)), hm, ?_, ?_, ?_⟩
  · simp [zfill_natDigits_length _ hm]
  · exact secretsChoice_mem _ _ hcons
  · exact secretsChoice_mem _ _ hcons
  · exact secretsChoice_mem _ _ hcons
  · exact secretsChoice_mem _ _ hvow
  · exact secretsChoice_mem _ _ hvow
  · exact secretsChoice_mem _ _ hvow
  · simp
  · simp [zfill_natDigits_length _ hm]
  · simp [zfill_natDigits_all_digits]

/-- C9: the generator in `server.py` and the generator of the disk
backend in `storage_backend.py` compute identical codes from identical
random draws, so both backends allocate from the same code space. -/
theorem generators_agree (f : Nat → Nat) (pos : Nat) :
    Server.generate_human_readable_code f pos =
      DiskStorageBackend.generate_human_readable_code f pos := rfl

/-! ### State-update lemmas and concrete test states -/

theorem setDat_dat_self (st : DiskState) (code : Text) (v : Option Bytes) :
    (setDat st code v).dat code = v := by simp [setDat]

theorem setExp_exp_self (st : DiskState) (code : Text) (v : Option Text) :
    (setExp st code v).exp code = v := by simp [setExp]

theorem setDat_exp (st : DiskState) (code : Text) (v : Option Bytes) :
    (setDat st code v).exp = st.exp := rfl

theorem setExp_dat (st : DiskState) (code : Text) (v : Option Text) :
    (setExp st code v).dat = st.dat := rfl

/-- The code produced by the generators when every random draw is 0. -/
def cbCode : Text := ['b', 'a', 'b', 'a', 'b', 'a', '0', '0']

/-- A state holding both records for `cbCode`. -/
def stBothRecords : DiskState :=
  setExp (setDat emptyDisk cbCode (some [1])) cbCode (some (natDigits 5))

/-- A state holding only the data record for `cbCode` (a half-written
entry: crash between the two writes of `store_data`). -/
def stDatOnly : DiskState := setDat emptyDisk cbCode (some [1, 2])

/-- A state whose expiry record for `cbCode` holds unparsable text. -/
def stGarbageExp : DiskState :=
  setExp (setDat emptyDisk cbCode (some [1, 2])) cbCode (some ['o', 'o', 'p', 's'])

/-- A state whose expiry record for `cbCode` holds the timestamp 5. -/
def stBoundary : DiskState :=
  setExp (setDat emptyDisk cbCode (some [7])) cbCode (some (natDigits 5))

/-- C2 (code bug in `delete_data`): deleting a code with no backing
records raises `FileNotFoundError` (`os.remove` on a missing file),
and so does the second of two consecutive deletes; the claimed
idempotency does not hold. -/
theorem delete_data_raises_on_absent :
    DiskStorageBackend.delete_data cbCode emptyDisk = (.error .fileNotFound, emptyDisk) ∧
    ∃ st', DiskStorageBackend.delete_data cbCode stBothRecords = (.ok (), st') ∧
      DiskStorageBackend.delete_data cbCode st' = (.error .fileNotFound, st') :=
  ⟨rfl, _, rfl, rfl⟩

/-- C3 (code bug in `_exists`/`retrieve_data`): when only the data
record exists the entry is reported absent without error, as claimed;
but when the expiry record exists with contents that do not parse,
`datetime.fromisoformat` raises a `ValueError` that propagates out of
`retrieve_data` unhandled, instead of a not-found report. -/
theorem retrieve_raises_on_unparsable_expiry :
    (∀ t : Nat, DiskStorageBackend.retrieve_data cbCode t stDatOnly = (.ok none, stDatOnly)) ∧
    DiskStorageBackend._exists cbCode 5 stGarbageExp = (.error .valueError, stGarbageExp) ∧
    DiskStorageBackend.retrieve_data cbCode 5 stGarbageExp =
      (.error .valueError, stGarbageExp) :=
  ⟨fun _ => rfl, rfl, rfl⟩

/-- C5 (code bug in the `/store` endpoint): an empty request body is
rejected before any code is allocated (the random cursor does not
advance) and before any storage write (the cache state is unchanged),
but the response is HTTP 500, not a 400-class client error: the
endpoint's `except Exception` clause catches its own inner
`HTTPException(status_code=400)` and re-raises it as
`HTTPException(status_code=500)`. -/
theorem empty_body_gives_500 (f : Nat → Nat) (pos timeout : Nat) (st : RedisState) :
    Server.store_data [] f pos timeout st = (.error 500, pos, st) := rfl

/-- C1: a payload stored by the disk backend is returned exactly by
`retrieve_data` on the code `store_data` handed out, at any time
strictly before the stored expiry `now + timeout`. -/
theorem disk_round_trip (data : Bytes) (f : Nat → Nat) (pos now timeout : Nat)
    (st : DiskState) (code : Text) (pos' : Nat) (st' : DiskState)
    (hstore : DiskStorageBackend.store_data data f pos now timeout st =
      (.ok (code, pos'), st'))
    (t : Nat) (ht : t < now + timeout) :
    DiskStorageBackend.retrieve_data code t st' = (.ok (some data), st') := by
  unfold DiskStorageBackend.store_data at hstore
  rcases halloc : DiskStorageBackend._ensure_unique_code f pos now st with ⟨r, st1⟩
  rw [halloc] at hstore
  cases r with
  | error e => simp at hstore
  | ok cp =>
    rcases cp with ⟨c0, p0⟩
    simp only [Prod.mk.injEq, Except.ok.injEq] at hstore
    obtain ⟨⟨rfl, rfl⟩, rfl⟩ := hstore
    unfold DiskStorageBackend.retrieve_data DiskStorageBackend._exists
    rw [setExp_exp_self]
    simp only [fromisoformat_roundtrip]
    rw [if_neg (by omega : ¬ now + timeout < t)]
    simp only [setExp_dat, setDat_dat_self]

/-- Witness for C1 at a concrete store followed by a concrete
retrieve. -/
theorem disk_round_trip_witness : ∃ st',
    DiskStorageBackend.store_data [1, 2] (fun _ => 0) 0 10 3600 emptyDisk =
      (.ok (cbCode, 7), st') ∧
    DiskStorageBackend.retrieve_data cbCode 100 st' = (.ok (some [1, 2]), st') :=
  ⟨_, rfl, disk_round_trip [1, 2] (fun _ => 0) 0 10 3600 emptyDisk cbCode 7 _ rfl 100 (by omega)⟩

/-- C4 counterexample: with stored expiry timestamp 5 and `now = 5`,
the timestamp does not lie in the future, so the claim demands that
the existence check purge the records and report absent; `_exists`
instead reports the entry present (its comparison is the strict
`expiration_time < now`) and leaves both records in place. -/
theorem exists_check_claim_false :
    ¬ (∀ (code : Text) (now : Nat) (st : DiskState) (contents : Text) (t : Nat),
        st.exp code = some contents →
        fromisoformat (stripText contents) = some t →
        ¬ now < t →
        ∃ stAfter, DiskStorageBackend._exists code now st = (.ok false, stAfter)) := by
  intro h
  obtain ⟨stAfter, hfalse⟩ :=
    h cbCode 5 stBoundary (natDigits 5) 5 rfl (fromisoformat_roundtrip 5) (by omega)
  rw [show DiskStorageBackend._exists cbCode 5 stBoundary = (.ok true, stBoundary) from rfl]
    at hfalse
  simp at hfalse

/-- C4 (amended): for a code whose expiry record is present and parses
to timestamp `t`, `_exists` reports the entry present iff `t` is not
strictly earlier than `now` (so `t = now` still counts as present,
unlike the claim's strict "in the future"); when `t < now` it deletes
both records and reports absent provided both records are present, and
a subsequent retrieve then reports not-found — but when the data
record is missing the purge raises `FileNotFoundError`, which
propagates instead of the not-found result (the purge is not
best-effort). -/
theorem exists_check_spec (code : Text) (now : Nat) (st : DiskState)
    (contents : Text) (t : Nat)
    (hexp : st.exp code = some contents)
    (hparse : fromisoformat (stripText contents) = some t) :
    (¬ t < now → DiskStorageBackend._exists code now st = (.ok true, st)) ∧
    (t < now → ∀ d, st.dat code = some d →
      DiskStorageBackend._exists code now st =
        (.ok false, setExp (setDat st code none) code none) ∧
      DiskStorageBackend.retrieve_data code now (setExp (setDat st code none) code none) =
        (.ok none, setExp (setDat st code none) code none)) ∧
    (t < now → st.dat code = none →
      DiskStorageBackend._exists code now st = (.error .fileNotFound, st)) := by
  refine ⟨?_, ?_, ?_⟩
  · intro hlt
    unfold DiskStorageBackend._exists
    rw [hexp]
    simp only [hparse]
    rw [if_neg hlt]
  · intro hlt d hd
    constructor
    · unfold DiskStorageBackend._exists
      rw [hexp]
      simp only [hparse]
      rw [if_pos hlt]
      unfold DiskStorageBackend.delete_data DiskStorageBackend.remove_dat
        DiskStorageBackend.remove_exp
      rw [hd]
      simp only [setDat_exp]
      rw [hexp]
    · unfold DiskStorageBackend.retrieve_data DiskStorageBackend._exists
      rw [setExp_exp_self]
  · intro hlt hd
    unfold DiskStorageBackend._exists
    rw [hexp]
    simp only [hparse]
    rw [if_pos hlt]
    unfold DiskStorageBackend.delete_data DiskStorageBackend.remove_dat
    rw [hd]

/-- Witness for the amended C4: at `now = 5` the timestamp 5 is
reported present; at `now = 9` it is expired, purged and reported
absent. -/
theorem exists_check_spec_witness :
    DiskStorageBackend._exists cbCode 5 stBoundary = (.ok true, stBoundary) ∧
    DiskStorageBackend._exists cbCode 9 stBoundary =
      (.ok false, setExp (setDat stBoundary cbCode none) cbCode none) :=
  ⟨(exists_check_spec cbCode 5 stBoundary (natDigits 5) 5 rfl
      (fromisoformat_roundtrip 5)).1 (by omega),
   ((exists_check_spec cbCode 9 stBoundary (natDigits 5) 5 rfl
      (fromisoformat_roundtrip 5)).2.1 (by omega) [7] rfl).1⟩

/-! ### The state after a successful allocation has no expiry record -/

theorem delete_ok_exp_none (code : Text) (st st' : DiskState) (u : Unit)
    (h : DiskStorageBackend.delete_data code st = (.ok u, st')) :
    st'.exp code = none := by
  unfold DiskStorageBackend.delete_data DiskStorageBackend.remove_dat
    DiskStorageBackend.remove_exp at h
  cases hdat : st.dat code with
  | none => rw [hdat] at h; simp at h
  | some d =>
    rw [hdat] at h
    simp only at h
    cases hexp : (setDat st code none).exp code with
    | none => rw [hexp] at h; simp at h
    | some c2 =>
      rw [hexp] at h
      simp only [Prod.mk.injEq] at h
      rw [← h.2]
      exact setExp_exp_self _ _ _

theorem exists_false_exp_none (code : Text) (now : Nat) (st st' : DiskState)
    (h : DiskStorageBackend._exists code now st = (.ok false, st')) :
    st'.exp code = none := by
  unfold DiskStorageBackend._exists at h
  cases hexp : st.exp code with
  | none =>
    rw [hexp] at h
    simp only [Prod.mk.injEq] at h
    rw [← h.2]
    exact hexp
  | some contents =>
    rw [hexp] at h
    dsimp only at h
    cases hparse : fromisoformat (stripText contents) with
    | none => rw [hparse] at h; simp at h
    | some t =>
      rw [hparse] at h
      simp only at h
      by_cases hlt : t < now
      · rw [if_pos hlt] at h
        rcases hdel : DiskStorageBackend.delete_data code st with ⟨rd, std⟩
        rw [hdel] at h
        cases rd with
        | error e => simp at h
        | ok u =>
          simp only [Prod.mk.injEq] at h
          rw [← h.2]
          exact delete_ok_exp_none code st std u hdel
      · rw [if_neg hlt] at h
        simp at h

theorem ensure_loop_ok_exp_none (fuel : Nat) (f : Nat → Nat) (pos now : Nat)
    (st : DiskState) (code : Text) (pos' : Nat) (st' : DiskState)
    (h : DiskStorageBackend.ensure_unique_code_loop fuel f pos now st =
      (.ok (code, pos'), st')) :
    st'.exp code = none := by
  induction fuel generalizing pos st with
  | zero => simp [DiskStorageBackend.ensure_unique_code_loop] at h
  | succ fuel ih =>
    unfold DiskStorageBackend.ensure_unique_code_loop at h
    rcases hex : DiskStorageBackend._exists
        (DiskStorageBackend.generate_human_readable_code f pos).1 now st with ⟨r, st1⟩
    rw [hex] at h
    cases r with
    | error e => simp at h
    | ok b =>
      cases b with
      | true => exact ih _ _ h
      | false =>
        simp only [Prod.mk.injEq, Except.ok.injEq] at h
        obtain ⟨⟨rfl, rfl⟩, rfl⟩ := h
        exact exists_false_exp_none _ _ _ _ hex

/-- C10: inside a single `store_data` call the data record is written
before the expiry record: after a successful allocation the chosen
code has no expiry record, so the intermediate state between the two
writes holds the payload in the data record with the expiry record
still absent — a state every existence check reports as absent — and
`store_data` is exactly that allocation followed by the data write
followed by the expiry write. An expiry record without a data record
can never arise mid-store. -/
theorem store_write_order (data : Bytes) (f : Nat → Nat) (pos now timeout t : Nat)
    (st : DiskState) (code : Text) (pos' : Nat) (st1 : DiskState)
    (halloc : DiskStorageBackend._ensure_unique_code f pos now st =
      (.ok (code, pos'), st1)) :
    st1.exp code = none ∧
    (setDat st1 code (some data)).dat code = some data ∧
    (setDat st1 code (some data)).exp code = none ∧
    DiskStorageBackend._exists code t (setDat st1 code (some data)) =
      (.ok false, setDat st1 code (some data)) ∧
    DiskStorageBackend.store_data data f pos now timeout st =
      (.ok (code, pos'),
        setExp (setDat st1 code (some data)) code (some (natDigits (now + timeout)))) := by
  have hnone : st1.exp code = none :=
    ensure_loop_ok_exp_none 100 f pos now st code pos' st1 halloc
  have hmidnone : (setDat st1 code (some data)).exp code = none := by
    rw [setDat_exp]; exact hnone
  refine ⟨hnone, setDat_dat_self _ _ _, hmidnone, ?_, ?_⟩
  · unfold DiskStorageBackend._exists
    rw [hmidnone]
  · unfold DiskStorageBackend.store_data
    rw [halloc]

/-- Witness for C10 at a concrete allocation on the empty store. -/
theorem store_write_order_witness :
    emptyDisk.exp cbCode = none ∧
    (setDat emptyDisk cbCode (some [9])).dat cbCode = some [9] ∧
    (setDat emptyDisk cbCode (some [9])).exp cbCode = none ∧
    DiskStorageBackend._exists cbCode 5 (setDat emptyDisk cbCode (some [9])) =
      (.ok false, setDat emptyDisk cbCode (some [9])) ∧
    DiskStorageBackend.store_data [9] (fun _ => 0) 0 0 3600 emptyDisk =
      (.ok (cbCode, 7),
        setExp (setDat emptyDisk cbCode (some [9])) cbCode (some (natDigits (0 + 3600)))) :=
  store_write_order [9] (fun _ => 0) 0 0 3600 5 emptyDisk cbCode 7 emptyDisk rfl

/-! ### C6: the allocation loops of both backends -/

namespace DiskStorageBackend

/-- All of the first `fuel` attempts hit an existing (unexpired) code:
each existence check returns `True` and the loop continues in the
post-check state. -/
def allTaken (f : Nat → Nat) (now : Nat) : Nat → Nat → DiskState → Prop
  | 0, _, _ => True
  | fuel + 1, pos, st =>
    ∃ st', _exists (generate_human_readable_code f pos).1 now st = (.ok true, st') ∧
      allTaken f now fuel (generate_human_readable_code f pos).2 st'

/-- `code` is the first generated candidate whose existence check
returns `False`, every earlier candidate's check having returned
`True`; `stFin` is the state after the deciding check. -/
def firstFreeIs (f : Nat → Nat) (now : Nat) :
    Nat → Nat → DiskState → Text → DiskState → Prop
  | 0, _, _, _, _ => False
  | fuel + 1, pos, st, code, stFin =>
    ((generate_human_readable_code f pos).1 = code ∧
      _exists (generate_human_readable_code f pos).1 now st = (.ok false, stFin)) ∨
    (∃ st', _exists (generate_human_readable_code f pos).1 now st = (.ok true, st') ∧
      firstFreeIs f now fuel (generate_human_readable_code f pos).2 st' code stFin)

end DiskStorageBackend

/-- The new state holds no record the old state did not already hold:
the only state changes are deletions (lazy purges). -/
def Shrinks (stNew stOld : DiskState) : Prop :=
  ∀ c, (stNew.dat c = stOld.dat c ∨ stNew.dat c = none) ∧
       (stNew.exp c = stOld.exp c ∨ stNew.exp c = none)

theorem shrinks_refl (st : DiskState) : Shrinks st st :=
  fun _ => ⟨Or.inl rfl, Or.inl rfl⟩

theorem shrinks_trans {st3 st2 st1 : DiskState}
    (h32 : Shrinks st3 st2) (h21 : Shrinks st2 st1) : Shrinks st3 st1 := by
  intro c
  rcases h32 c with ⟨hd32, he32⟩
  rcases h21 c with ⟨hd21, he21⟩
  constructor
  · rcases hd32 with h | h
    · rw [h]; exact hd21
    · exact Or.inr h
  · rcases he32 with h | h
    · rw [h]; exact he21
    · exact Or.inr h

theorem setDat_none_shrinks (st : DiskState) (code : Text) :
    Shrinks (setDat st code none) st := by
  intro c
  constructor
  · by_cases h : c = code <;> simp [setDat, h]
  · exact Or.inl rfl

theorem setExp_none_shrinks (st : DiskState) (code : Text) :
    Shrinks (setExp st code none) st := by
  intro c
  constructor
  · exact Or.inl rfl
  · by_cases h : c = code <;> simp [setExp, h]

theorem delete_shrinks (code : Text) (st : DiskState) :
    Shrinks (DiskStorageBackend.delete_data code st).2 st := by
  unfold DiskStorageBackend.delete_data DiskStorageBackend.remove_dat
    DiskStorageBackend.remove_exp
  cases st.dat code with
  | none => exact shrinks_refl st
  | some d =>
    dsimp only
    cases (setDat st code none).exp code with
    | none => exact setDat_none_shrinks st code
    | some c2 => exact shrinks_trans (setExp_none_shrinks _ _) (setDat_none_shrinks _ _)

theorem exists_shrinks (code : Text) (now : Nat) (st : DiskState) :
    Shrinks (DiskStorageBackend._exists code now st).2 st := by
  unfold DiskStorageBackend._exists
  cases st.exp code with
  | none => exact shrinks_refl st
  | some contents =>
    dsimp only
    cases fromisoformat (stripText contents) with
    | none => exact shrinks_refl st
    | some t =>
      dsimp only
      by_cases hlt : t < now
      · rw [if_pos hlt]
        rcases hdel : DiskStorageBackend.delete_data code st with ⟨rd, std⟩
        have hs := delete_shrinks code st
        rw [hdel] at hs
        cases rd with
        | error e => exact hs
        | ok u => exact hs
      · rw [if_neg hlt]
        exact shrinks_refl st

theorem delete_no_alloc (code : Text) (st : DiskState) :
    (DiskStorageBackend.delete_data code st).1 ≠ .error .allocExhausted := by
  unfold DiskStorageBackend.delete_data DiskStorageBackend.remove_dat
    DiskStorageBackend.remove_exp
  cases st.dat code with
  | none => simp
  | some d =>
    dsimp only
    cases (setDat st code none).exp code with
    | none => simp
    | some c2 => simp

theorem exists_no_alloc (code : Text) (now : Nat) (st : DiskState) :
    (DiskStorageBackend._exists code now st).1 ≠ .error .allocExhausted := by
  unfold DiskStorageBackend._exists
  cases st.exp code with
  | none => simp
  | some contents =>
    dsimp only
    cases fromisoformat (stripText contents) with
    | none => simp
    | some t =>
      dsimp only
      by_cases hlt : t < now
      · rw [if_pos hlt]
        rcases hdel : DiskStorageBackend.delete_data code st with ⟨rd, std⟩
        have hne := delete_no_alloc code st
        rw [hdel] at hne
        cases rd with
        | error e => simpa using hne
        | ok u => simp
      · rw [if_neg hlt]
        simp

theorem disk_loop_exhausted_iff (fuel : Nat) (f : Nat → Nat) (now : Nat) :
    ∀ (pos : Nat) (st : DiskState),
    ((DiskStorageBackend.ensure_unique_code_loop fuel f pos now st).1 =
        .error .allocExhausted ↔
      DiskStorageBackend.allTaken f now fuel pos st) := by
  induction fuel with
  | zero =>
    intro pos st
    simp [DiskStorageBackend.ensure_unique_code_loop, DiskStorageBackend.allTaken]
  | succ fuel ih =>
    intro pos st
    unfold DiskStorageBackend.ensure_unique_code_loop DiskStorageBackend.allTaken
    rcases hex : DiskStorageBackend._exists
        (DiskStorageBackend.generate_human_readable_code f pos).1 now st with ⟨r, st1⟩
    cases r with
    | error e =>
      have hne := exists_no_alloc
        (DiskStorageBackend.generate_human_readable_code f pos).1 now st
      rw [hex] at hne
      constructor
      · intro hh
        exact absurd hh (by simpa using hne)
      · rintro ⟨st', hst', -⟩
        simp at hst'
    | ok b =>
      cases b with
      | true =>
        rw [ih]
        constructor
        · intro hh
          exact ⟨st1, rfl, hh⟩
        · rintro ⟨st', hst', htaken⟩
          simp only [Prod.mk.injEq, Except.ok.injEq] at hst'
          rw [hst'.2]
          exact htaken
      | false =>
        constructor
        · intro hh
          simp at hh
        · rintro ⟨st', hst', -⟩
          simp at hst'

theorem disk_loop_ok_firstFree (fuel : Nat) (f : Nat → Nat) (now : Nat) :
    ∀ (pos : Nat) (st : DiskState) (code : Text) (pos' : Nat) (st' : DiskState),
    DiskStorageBackend.ensure_unique_code_loop fuel f pos now st =
      (.ok (code, pos'), st') →
    DiskStorageBackend.firstFreeIs f now fuel pos st code st' := by
  induction fuel with
  | zero =>
    intro pos st code pos' st' h
    simp [DiskStorageBackend.ensure_unique_code_loop] at h
  | succ fuel ih =>
    intro pos st code pos' st' h
    unfold DiskStorageBackend.ensure_unique_code_loop at h
    unfold DiskStorageBackend.firstFreeIs
    rcases hex : DiskStorageBackend._exists
        (DiskStorageBackend.generate_human_readable_code f pos).1 now st with ⟨r, st1⟩
    rw [hex] at h
    cases r with
    | error e => simp at h
    | ok b =>
      cases b with
      | true => exact Or.inr ⟨st1, rfl, ih _ _ _ _ _ h⟩
      | false =>
        simp only [Prod.mk.injEq, Except.ok.injEq] at h
        obtain ⟨⟨rfl, rfl⟩, rfl⟩ := h
        exact Or.inl ⟨rfl, rfl⟩

theorem disk_loop_shrinks (fuel : Nat) (f : Nat → Nat) (now : Nat) :
    ∀ (pos : Nat) (st : DiskState),
    Shrinks (DiskStorageBackend.ensure_unique_code_loop fuel f pos now st).2 st := by
  induction fuel with
  | zero => intro pos st; exact shrinks_refl st
  | succ fuel ih =>
    intro pos st
    unfold DiskStorageBackend.ensure_unique_code_loop
    rcases hex : DiskStorageBackend._exists
        (DiskStorageBackend.generate_human_readable_code f pos).1 now st with ⟨r, st1⟩
    have hs := exists_shrinks
      (DiskStorageBackend.generate_human_readable_code f pos).1 now st
    rw [hex] at hs
    cases r with
    | error e => exact hs
    | ok b =>
      cases b with
      | true => exact shrinks_trans (ih _ st1) hs
      | false => exact hs

namespace Server

/-- The candidate generated at attempt `j` (0-based) when the loop
starts at cursor `pos`. -/
def candidate (f : Nat → Nat) : Nat → Nat → Text
  | pos, 0 => (generate_human_readable_code f pos).1
  | pos, j + 1 => candidate f (generate_human_readable_code f pos).2 j

end Server

theorem server_loop_500_iff (fuel : Nat) (f : Nat → Nat) (st : RedisState) :
    ∀ pos : Nat,
    ((Server.ensure_unique_code_loop fuel f pos st).1 = .error 500 ↔
      ∀ j < fuel,
        redis_exists st (Server.clipipeKey (Server.candidate f pos j)) = true) := by
  induction fuel with
  | zero => intro pos; simp [Server.ensure_unique_code_loop]
  | succ fuel ih =>
    intro pos
    unfold Server.ensure_unique_code_loop
    by_cases hex : redis_exists st
        (Server.clipipeKey (Server.generate_human_readable_code f pos).1)
    · rw [if_pos hex, ih]
      constructor
      · intro h j hj
        cases j with
        | zero => simpa [Server.candidate] using hex
        | succ j =>
          have := h j (by omega)
          simpa [Server.candidate] using this
      · intro h j hj
        have := h (j + 1) (by omega)
        simpa [Server.candidate] using this
    · rw [if_neg hex]
      constructor
      · intro hh
        simp at hh
      · intro h
        have h0 := h 0 (by omega)
        rw [show Server.candidate f pos 0 =
          (Server.generate_human_readable_code f pos).1 from rfl] at h0
        exact absurd h0 (by simpa using hex)

theorem server_loop_ok_first (fuel : Nat) (f : Nat → Nat) (st : RedisState) :
    ∀ (pos : Nat) (code : Text) (pos' : Nat),
    Server.ensure_unique_code_loop fuel f pos st = (.ok code, pos') →
    ∃ k, k < fuel ∧ code = Server.candidate f pos k ∧
      redis_exists st (Server.clipipeKey code) = false ∧
      ∀ j < k,
        redis_exists st (Server.clipipeKey (Server.candidate f pos j)) = true := by
  induction fuel with
  | zero =>
    intro pos code pos' h
    simp [Server.ensure_unique_code_loop] at h
  | succ fuel ih =>
    intro pos code pos' h
    unfold Server.ensure_unique_code_loop at h
    by_cases hex : redis_exists st
        (Server.clipipeKey (Server.generate_human_readable_code f pos).1)
    · rw [if_pos hex] at h
      obtain ⟨k, hk, hc, hfree, hprev⟩ := ih _ _ _ h
      refine ⟨k + 1, by omega, by simpa [Server.candidate] using hc, hfree, ?_⟩
      intro j hj
      cases j with
      | zero => simpa [Server.candidate] using hex
      | succ j => simpa [Server.candidate] using hprev j (by omega)
    · rw [if_neg hex] at h
      simp only [Prod.mk.injEq, Except.ok.injEq] at h
      obtain ⟨rfl, rfl⟩ := h
      exact ⟨0, by omega, rfl, by simpa using hex,
        fun j hj => absurd hj (Nat.not_lt_zero j)⟩

/-- A cache state in which every key already exists. -/
def fullRedis : RedisState := fun _ => some ([], 0)

/-- C6: in both backends code allocation loops at most 100 times
(`_ensure_unique_code` and `ensure_unique_code` run the bounded loop
with `max_attempts = 100`), each attempt generating a fresh candidate
and checking its existence, and the loop returns the first candidate
whose check reports absent; when every one of the 100 attempts finds
an existing code the operation fails as a server-side fault (the disk
backend's generic `Exception`, the redis backend's
`HTTPException(500)`, not a 400-class client error) and no entry is
written: the disk store propagates the failure having at most purged
expired records, and the redis store leaves the cache unchanged. -/
theorem allocation_loop_spec (f : Nat → Nat) (pos now : Nat) (st : DiskState)
    (f2 : Nat → Nat) (pos2 : Nat) (st2 : RedisState) :
    (DiskStorageBackend._ensure_unique_code f pos now st =
        DiskStorageBackend.ensure_unique_code_loop 100 f pos now st) ∧
    ((DiskStorageBackend._ensure_unique_code f pos now st).1 =
        .error .allocExhausted ↔
      DiskStorageBackend.allTaken f now 100 pos st) ∧
    (∀ code pos' st',
      DiskStorageBackend._ensure_unique_code f pos now st = (.ok (code, pos'), st') →
      DiskStorageBackend.firstFreeIs f now 100 pos st code st') ∧
    (∀ e st', DiskStorageBackend._ensure_unique_code f pos now st = (.error e, st') →
      (∀ data timeout,
        DiskStorageBackend.store_data data f pos now timeout st = (.error e, st')) ∧
      Shrinks st' st) ∧
    (Server.ensure_unique_code f2 pos2 st2 =
        Server.ensure_unique_code_loop 100 f2 pos2 st2) ∧
    ((Server.ensure_unique_code f2 pos2 st2).1 = .error 500 ↔
      ∀ j < 100,
        redis_exists st2 (Server.clipipeKey (Server.candidate f2 pos2 j)) = true) ∧
    (∀ code pos', Server.ensure_unique_code f2 pos2 st2 = (.ok code, pos') →
      ∃ k, k < 100 ∧ code = Server.candidate f2 pos2 k ∧
        redis_exists st2 (Server.clipipeKey code) = false ∧
        ∀ j < k,
          redis_exists st2 (Server.clipipeKey (Server.candidate f2 pos2 j)) = true) ∧
    (∀ body timeout, body ≠ [] →
      (Server.ensure_unique_code f2 pos2 st2).1 = .error 500 →
      ∃ pos', Server.store_data body f2 pos2 timeout st2 = (.error 500, pos', st2)) := by
  refine ⟨rfl, disk_loop_exhausted_iff 100 f now pos st, ?_, ?_, rfl,
    server_loop_500_iff 100 f2 st2 pos2, ?_, ?_⟩
  · intro code pos' st' h
    exact disk_loop_ok_firstFree 100 f now pos st code pos' st' h
  · intro e st' h
    constructor
    · intro data timeout
      unfold DiskStorageBackend.store_data
      rw [h]
    · have hs := disk_loop_shrinks 100 f now pos st
      rw [show DiskStorageBackend.ensure_unique_code_loop 100 f pos now st =
        DiskStorageBackend._ensure_unique_code f pos now st from rfl, h] at hs
      exact hs
  · intro code pos' h
    exact server_loop_ok_first 100 f2 st2 pos2 code pos' h
  · intro body timeout hbody h500
    unfold Server.store_data Server.store_try
    rw [if_neg hbody]
    rcases hens : Server.ensure_unique_code f2 pos2 st2 with ⟨r, p'⟩
    rw [hens] at h500
    cases r with
    | error s =>
      simp only [Except.error.injEq] at h500
      rw [h500]
      exact ⟨p', rfl⟩
    | ok c => simp at h500

/-- Witness for C6: on the empty disk store the very first candidate is
free and the loop returns it; on a saturated cache every check finds an
existing key and the redis loop reports the 500-class fault. -/
theorem allocation_loop_spec_witness :
    DiskStorageBackend.firstFreeIs (fun _ => 0) 0 100 0 emptyDisk cbCode emptyDisk ∧
    (∃ k, k < 100 ∧ cbCode = Server.candidate (fun _ => 0) 0 k ∧
      redis_exists emptyRedis (Server.clipipeKey cbCode) = false ∧
      ∀ j < k,
        redis_exists emptyRedis
          (Server.clipipeKey (Server.candidate (fun _ => 0) 0 j)) = true) ∧
    (Server.ensure_unique_code (fun _ => 0) 0 fullRedis).1 = .error 500 :=
  ⟨(allocation_loop_spec (fun _ => 0) 0 0 emptyDisk (fun _ => 0) 0
      emptyRedis).2.2.1 cbCode 7 emptyDisk rfl,
   (allocation_loop_spec (fun _ => 0) 0 0 emptyDisk (fun _ => 0) 0
      emptyRedis).2.2.2.2.2.2.1 cbCode 7 rfl,
   ((allocation_loop_spec (fun _ => 0) 0 0 emptyDisk (fun _ => 0) 0
      fullRedis).2.2.2.2.2.1).mpr (fun _ _ => rfl)⟩

/-- C8: a successful store on the remote-cache backend writes the
payload bytes with `setex` under the single key `clipipe:<code>` with
the substrate's native expiry set, at write time, to the configured
timeout (whose environment default is 3600 seconds); every other key
is untouched (no separate expiry record), the response reports
`expires_in = timeout`, and a retrieve of that code is the single
fetch of that key, returning the payload. -/
theorem remote_store_spec (body : Bytes) (f : Nat → Nat) (pos timeout : Nat)
    (st : RedisState) (r : Text × Nat) (pos' : Nat) (st' : RedisState)
    (h : Server.store_data body f pos timeout st = (.ok r, pos', st')) :
    r.2 = timeout ∧
    st' = setex st (Server.clipipeKey r.1) timeout body ∧
    st' (Server.clipipeKey r.1) = some (body, timeout) ∧
    (∀ k, k ≠ Server.clipipeKey r.1 → st' k = st k) ∧
    Server.retrieve_data r.1 st' = .ok body ∧
    Server.TIMEOUT_SECONDS none = some 3600 := by
  unfold Server.store_data Server.store_try at h
  by_cases hbody : body = []
  · rw [if_pos hbody] at h
    simp at h
  · rw [if_neg hbody] at h
    rcases hens : Server.ensure_unique_code f pos st with ⟨re, pe⟩
    rw [hens] at h
    cases re with
    | error s => simp at h
    | ok code =>
      simp only [Prod.mk.injEq, Except.ok.injEq] at h
      obtain ⟨rfl, rfl, rfl⟩ := h
      refine ⟨rfl, rfl, ?_, ?_, ?_, ?_⟩
      · simp [setex]
      · intro k hk
        simp [setex, hk]
      · unfold Server.retrieve_data Server.retrieve_try redis_get
        simp [setex]
      · rw [show Server.TIMEOUT_SECONDS none = parseDec (natDigits 3600) from rfl]
        exact parseDec_natDigits 3600

/-- Witness for C8 at a concrete store on the empty cache. -/
theorem remote_store_spec_witness :
    ∃ st', Server.store_data [5] (fun _ => 0) 0 3600 emptyRedis =
        (.ok (cbCode, 3600), 7, st') ∧
      st' (Server.clipipeKey cbCode) = some ([5], 3600) ∧
      Server.retrieve_data cbCode st' = .ok [5] :=
  ⟨_, rfl,
   (remote_store_spec [5] (fun _ => 0) 0 3600 emptyRedis (cbCode, 3600) 7 _ rfl).2.2.1,
   (remote_store_spec [5] (fun _ => 0) 0 3600 emptyRedis (cbCode, 3600) 7 _ rfl).2.2.2.2.1⟩
